import Mathlib

/-! Token and host resolution of `pkg/auth/auth.go`

A shallow embedding of package `auth`: the credential resolver
(`normalizeHostname`, `isEnterprise`, `tokenForHost`, `tokenFromGh`,
`TokenFromEnvOrConfig`, `TokenForHost`) and the host enumerator (`knownHosts`,
`defaultHost`), followed by the launcher resolver of package `browser`.

Go strings are embedded as Lean strings, that is as sequences of Unicode
scalar values.  The process environment, the configuration reader, the
executable locator and the subprocess runner are explicit arguments.
-/

namespace Auth

/-! ## Constants of `auth.go` -/

def codespaces : String := "CODESPACES"
def defaultSource : String := "default"
def goctlEnterpriseToken : String := "GOCTL_ENTERPRISE_TOKEN"
def goctlHost : String := "GOCTL_HOST"
def goctlToken : String := "GOCTL_TOKEN"
def github : String := "github.com"
def githubEnterpriseToken : String := "GITHUB_ENTERPRISE_TOKEN"
def githubToken : String := "GITHUB_TOKEN"
def hostsKey : String := "hosts"
def localhost : String := "github.localhost"
def oauthToken : String := "oauth_token"

/-! ## Library functions used by `auth.go` -/

/-- Go `unicode.ToLower`: the ASCII range is decided in the function itself;
every other rune is looked up in the case table of the Go release, which is
taken as the argument `tbl` (it stands for `unicode.To(unicode.LowerCase, r)`). -/
def unicodeToLower (tbl : Char → Char) (r : Char) : Char :=
  if r.toNat ≤ 0x7F then
    if 'A'.toNat ≤ r.toNat ∧ r.toNat ≤ 'Z'.toNat then Char.ofNat (r.toNat + 32) else r
  else tbl r

/-- Go `strings.ToLower`: every rune of `s` mapped through `unicode.ToLower`. -/
def ToLower (tbl : Char → Char) (s : String) : String :=
  String.mk (s.data.map (unicodeToLower tbl))

/-- Go `strings.HasSuffix`:
`len(s) >= len(suffix) && s[len(s)-len(suffix):] == suffix`. -/
def HasSuffix (s suffix : String) : Bool :=
  decide (s.data.length ≥ suffix.data.length) &&
    (s.data.drop (s.data.length - suffix.data.length) == suffix.data)

/-- Go `strconv.ParseBool`: `none` stands for the syntax error. -/
def ParseBool (str : String) : Option Bool :=
  if str = "1" ∨ str = "t" ∨ str = "T" ∨ str = "true" ∨ str = "TRUE" ∨ str = "True" then
    some true
  else if str = "0" ∨ str = "f" ∨ str = "F" ∨ str = "false" ∨ str = "FALSE" ∨ str = "False" then
    some false
  else none

/-- Go `unicode.IsSpace`: the runes with the Unicode White_Space property. -/
def unicodeIsSpace (r : Char) : Bool :=
  let n := r.toNat
  n = 0x09 || n = 0x0A || n = 0x0B || n = 0x0C || n = 0x0D || n = 0x20 ||
  n = 0x85 || n = 0xA0 || n = 0x1680 || (0x2000 ≤ n && n ≤ 0x200A) ||
  n = 0x2028 || n = 0x2029 || n = 0x202F || n = 0x205F || n = 0x3000

/-- Go `strings.TrimSpace`: leading and trailing white space removed. -/
def TrimSpace (s : String) : String :=
  String.mk ((s.data.dropWhile unicodeIsSpace).reverse.dropWhile unicodeIsSpace).reverse

/-- The process environment: `os.Getenv` of a name, the empty string when the
variable is not set. -/
abbrev Env := String → String

/-- Modelled from the spec: package `config` is not among the sources.  A
configuration answers `Get` and `Keys` for a path of nested keys; `none`
stands for the error result, which the callers in `auth.go` discard, taking
the empty value. -/
structure Config where
  Get : List String → Option String
  Keys : List String → Option (List String)

/-! ## `auth.go` -/

/-- `isEnterprise` of `auth.go`. -/
def isEnterprise (host : String) : Bool :=
  host != github && host != localhost

/-- `normalizeHostname` of `auth.go`. -/
def normalizeHostname (tbl : Char → Char) (host : String) : String :=
  let hostname := ToLower tbl host
  if HasSuffix hostname ("." ++ github) then github
  else if HasSuffix hostname ("." ++ localhost) then localhost
  else hostname

/-- `tokenForHost` of `auth.go`; `cfg = none` is the nil configuration. -/
def tokenForHost (tbl : Char → Char) (env : Env) (cfg : Option Config) (host : String) :
    String × String :=
  let host := normalizeHostname tbl host
  let generic : String × String :=
    if env goctlToken ≠ "" then (env goctlToken, goctlToken)
    else if env githubToken ≠ "" then (env githubToken, githubToken)
    else match cfg with
      | some c => ((c.Get [hostsKey, host, oauthToken]).getD "", oauthToken)
      | none => ("", defaultSource)
  if isEnterprise host then
    if env goctlEnterpriseToken ≠ "" then (env goctlEnterpriseToken, goctlEnterpriseToken)
    else if env githubEnterpriseToken ≠ "" then (env githubEnterpriseToken, githubEnterpriseToken)
    else if (ParseBool (env codespaces)).getD false = true ∧ env githubToken ≠ "" then
      (env githubToken, githubToken)
    else match cfg with
      | some c => ((c.Get [hostsKey, host, oauthToken]).getD "", oauthToken)
      | none => generic
  else generic

/-- The ambient system seen by the exported functions: the environment, the
result of `config.Read(nil)` (`none` for nil), `safeexec.LookPath` (the path it
returns, empty on failure) and `exec.Command(path, args...).Output()` (the
standard output and whether an error was returned). -/
structure Sys where
  tbl : Char → Char
  env : Env
  readConfig : Option Config
  lookPath : String → String
  output : String → List String → String × Bool

/-- `tokenFromGh` of `auth.go`. -/
def tokenFromGh (w : Sys) (path host : String) : String × String :=
  let r := w.output path ["auth", "token", "--secure-storage", "--hostname", host]
  if r.2 then ("", "goctl") else (TrimSpace r.1, "goctl")

/-- `TokenFromEnvOrConfig` of `auth.go`. -/
def TokenFromEnvOrConfig (w : Sys) (host : String) : String × String :=
  tokenForHost w.tbl w.env w.readConfig host

/-- The helper executable chosen by `TokenForHost` (lines 40 to 43):
`GOCTL_PATH`, or the path lookup of `goctl` when that variable is empty. -/
def goctlExe (w : Sys) : String :=
  if w.env "GOCTL_PATH" = "" then w.lookPath "goctl" else w.env "GOCTL_PATH"

/-- `TokenForHost` of `auth.go`. -/
def TokenForHost (w : Sys) (host : String) : String × String :=
  let r := TokenFromEnvOrConfig w host
  if r.1 ≠ "" then r
  else if goctlExe w ≠ "" ∧ (tokenFromGh w (goctlExe w) host).1 ≠ "" then
    tokenFromGh w (goctlExe w) host
  else ("", defaultSource)

/-- Modelled from the spec: package `internal/set` is not among the sources.
It is the string-set container used for deduplication: a collection that keeps
each string once.  The strings are kept in the order of their first
insertion. -/
structure StringSet where
  v : List String

/-- `set.NewStringSet`: the empty set. -/
def NewStringSet : StringSet := StringSet.mk []

/-- Whether the set holds `value`. -/
def StringSet.Contains (s : StringSet) (value : String) : Bool :=
  decide (value ∈ s.v)

/-- `Add`: a string already held is not added again. -/
def StringSet.Add (s : StringSet) (value : String) : StringSet :=
  if s.Contains value then s else StringSet.mk (s.v ++ [value])

/-- `AddValues`: `Add` of every value in turn. -/
def StringSet.AddValues (s : StringSet) (values : List String) : StringSet :=
  values.foldl StringSet.Add s

/-- `ToSlice`: the strings held. -/
def StringSet.ToSlice (s : StringSet) : List String := s.v

/-- `knownHosts` of `auth.go`. -/
def knownHosts (tbl : Char → Char) (env : Env) (cfg : Option Config) : List String :=
  let hosts := NewStringSet
  let hosts := if env goctlHost ≠ "" then hosts.Add (env goctlHost) else hosts
  let hosts := if (tokenForHost tbl env cfg github).1 ≠ "" then hosts.Add github else hosts
  let hosts := match cfg with
    | some c =>
      match c.Keys [hostsKey] with
      | some keys => hosts.AddValues keys
      | none => hosts
    | none => hosts
  hosts.ToSlice

/-- `KnownHosts` of `auth.go`. -/
def KnownHosts (w : Sys) : List String :=
  knownHosts w.tbl w.env w.readConfig

/-- `defaultHost` of `auth.go`. -/
def defaultHost (env : Env) (cfg : Option Config) : String × String :=
  if env goctlHost ≠ "" then (env goctlHost, goctlHost)
  else match cfg with
    | some c =>
      match c.Keys [hostsKey] with
      | some keys => if keys.length = 1 then (keys.getD 0 "", hostsKey) else (github, defaultSource)
      | none => (github, defaultSource)
    | none => (github, defaultSource)

/-- `DefaultHost` of `auth.go`. -/
def DefaultHost (w : Sys) : String × String :=
  defaultHost w.env w.readConfig

end Auth

namespace Browser

open Auth

/-- Modelled from the spec: `resolveLauncher` of package `browser` is not among
the sources, only its test `TestResolveLauncher` is.  Precedence, first
non-empty wins: the tool-specific variable `GOCTL_BROWSER`; else the `browser`
field of the configuration; else the variable `BROWSER`; else the empty
string. -/
def resolveLauncher (env : Env) (cfg : Option Config) : String :=
  if env "GOCTL_BROWSER" ≠ "" then env "GOCTL_BROWSER"
  else match cfg with
    | some c =>
      if (c.Get ["browser"]).getD "" ≠ "" then (c.Get ["browser"]).getD "" else env "BROWSER"
    | none => env "BROWSER"

/-- The configuration read from the text `browser: <value>`. -/
def browserConfig (value : String) : Config where
  Get := fun path => if path = ["browser"] then some value else none
  Keys := fun path => if path = [] then some ["browser"] else none

end Browser

namespace Auth

/-! ## Concrete environments, tables and configurations used in examples -/

/-- The environment given by a list of bindings; unset names read as empty. -/
def envOf (bs : List (String × String)) : Env :=
  fun name => (bs.lookup name).getD ""

/-- A two-entry slice of a case table: `É` and `Ω` lower to `é` and `ω`. -/
def sampleTable : Char → Char :=
  fun r => if r = 'É' then 'é' else if r = 'Ω' then 'ω' else r

/-- The configuration `hosts: {example.com: {oauth_token: abc}}`. -/
def exampleConfig : Config where
  Get := fun path => if path = ["hosts", "example.com", "oauth_token"] then some "abc" else none
  Keys := fun path => if path = ["hosts"] then some ["example.com"] else none

/-- A configuration whose `hosts` section has the keys `keys`, each with the
token `tok`. -/
def hostsConfig (keys : List String) (tok : String) : Config where
  Get := fun path =>
    match path with
    | [a, h, b] => if a = "hosts" ∧ h ∈ keys ∧ b = "oauth_token" then some tok else none
    | _ => none
  Keys := fun path => if path = ["hosts"] then some keys else none

/-- A configuration in which every lookup fails. -/
def emptyConfig : Config where
  Get := fun _ => none
  Keys := fun _ => none

/-- A system whose helper executable is found at `path` by the path lookup
and prints `out` for the host `host`; every other invocation fails. -/
def sampleSys (env : Env) (cfg : Option Config) (path host : String) (out : String × Bool) :
    Sys where
  tbl := sampleTable
  env := env
  readConfig := cfg
  lookPath := fun name => if name = "goctl" then path else ""
  output := fun exe args =>
    if exe = path ∧ args = ["auth", "token", "--secure-storage", "--hostname", host] then out
    else ("", true)

/-! ## Lemmas on the library functions -/

theorem HasSuffix_iff (s t : String) : HasSuffix s t = true ↔ ∃ p : String, s = p ++ t := by
  have key : HasSuffix s t = true ↔ t.data <:+ s.data := by
    unfold HasSuffix
    rw [List.suffix_iff_eq_drop]
    constructor
    · intro h
      simp only [Bool.and_eq_true, decide_eq_true_eq, beq_iff_eq] at h
      exact h.2.symm
    · intro h
      have hlen : t.data.length ≤ s.data.length := by
        have := congrArg List.length h
        simp only [List.length_drop] at this
        omega
      simp only [Bool.and_eq_true, decide_eq_true_eq, beq_iff_eq]
      exact ⟨hlen, h.symm⟩
  rw [key]
  constructor
  · rintro ⟨p, hp⟩
    refine ⟨String.mk p, ?_⟩
    apply String.ext
    simpa using hp.symm
  · rintro ⟨p, hp⟩
    refine ⟨p.data, ?_⟩
    rw [hp]
    simp

theorem unicodeToLower_ascii (tbl : Char → Char) (r : Char) (hr : r.toNat ≤ 0x7F) :
    unicodeToLower tbl (unicodeToLower tbl r) = unicodeToLower tbl r := by
  by_cases hu : 'A'.toNat ≤ r.toNat ∧ r.toNat ≤ 'Z'.toNat
  · have h1 : unicodeToLower tbl r = Char.ofNat (r.toNat + 32) := by
      simp only [unicodeToLower, hr, hu, and_self, if_true]
    have hv : (r.toNat + 32).isValidChar := by
      have : r.toNat + 32 < 0xd800 := by omega
      exact Or.inl this
    have h2 : (Char.ofNat (r.toNat + 32)).toNat = r.toNat + 32 := by
      simp only [Char.ofNat, hv, dite_true]
      rfl
    have hA : 'A'.toNat = 65 := by decide
    have hZ : 'Z'.toNat = 90 := by decide
    rw [h1]
    unfold unicodeToLower
    rw [h2, hA, hZ]
    rw [hA, hZ] at hu
    have h3 : r.toNat + 32 ≤ 0x7F := by omega
    have h4 : ¬ (65 ≤ r.toNat + 32 ∧ r.toNat + 32 ≤ 90) := by omega
    simp only [h3, h4, if_true, if_false]
  · have h1 : unicodeToLower tbl r = r := by
      simp only [unicodeToLower, hr, hu, if_true, if_false]
    rw [h1, h1]

theorem unicodeToLower_idem (tbl : Char → Char)
    (htbl : ∀ r : Char, 0x7F < r.toNat → unicodeToLower tbl (tbl r) = tbl r) (r : Char) :
    unicodeToLower tbl (unicodeToLower tbl r) = unicodeToLower tbl r := by
  by_cases hr : r.toNat ≤ 0x7F
  · exact unicodeToLower_ascii tbl r hr
  · have h1 : unicodeToLower tbl r = tbl r := by
      simp only [unicodeToLower, hr, if_false]
    rw [h1]
    exact htbl r (by omega)

theorem ToLower_idem (tbl : Char → Char)
    (htbl : ∀ r : Char, 0x7F < r.toNat → unicodeToLower tbl (tbl r) = tbl r) (s : String) :
    ToLower tbl (ToLower tbl s) = ToLower tbl s := by
  unfold ToLower
  simp only [List.map_map]
  congr 1
  apply List.map_congr_left
  intro r _
  exact unicodeToLower_idem tbl htbl r

theorem sampleTable_fixed (r : Char) (_ : 0x7F < r.toNat) :
    unicodeToLower sampleTable (sampleTable r) = sampleTable r := by
  unfold sampleTable
  by_cases h1 : r = 'É'
  · subst h1; decide
  · by_cases h2 : r = 'Ω'
    · subst h2; decide
    · simp only [h1, h2, if_false]
      unfold unicodeToLower
      have : ¬ r.toNat ≤ 0x7F := by omega
      simp only [this, if_false, sampleTable, h1, h2]

theorem ToLower_github (tbl : Char → Char) : ToLower tbl "github.com" = "github.com" := by rfl

theorem ToLower_localhost (tbl : Char → Char) :
    ToLower tbl "github.localhost" = "github.localhost" := by rfl

/-! ## Lemmas on `tokenForHost` -/

/-- The tail shared by both branches of `tokenForHost` (lines 81 to 91). -/
theorem tokenForHost_not_enterprise (tbl : Char → Char) (env : Env) (cfg : Option Config)
    (host : String) (hne : isEnterprise (normalizeHostname tbl host) = false) :
    tokenForHost tbl env cfg host =
      if env "GOCTL_TOKEN" ≠ "" then (env "GOCTL_TOKEN", "GOCTL_TOKEN")
      else if env "GITHUB_TOKEN" ≠ "" then (env "GITHUB_TOKEN", "GITHUB_TOKEN")
      else match cfg with
        | some c => ((c.Get ["hosts", normalizeHostname tbl host, "oauth_token"]).getD "",
            "oauth_token")
        | none => ("", "default") := by
  unfold tokenForHost
  simp only [hne, Bool.false_eq_true, if_false]
  rfl

theorem isEnterprise_iff (host : String) :
    isEnterprise host = true ↔ host ≠ "github.com" ∧ host ≠ "github.localhost" := by
  unfold isEnterprise github localhost
  simp

/-- With a configuration present, an enterprise host is settled inside the
enterprise branch (lines 64 to 79). -/
theorem tokenForHost_enterprise_present (tbl : Char → Char) (env : Env) (c : Config)
    (host : String) (he : isEnterprise (normalizeHostname tbl host) = true) :
    tokenForHost tbl env (some c) host =
      if env "GOCTL_ENTERPRISE_TOKEN" ≠ "" then
        (env "GOCTL_ENTERPRISE_TOKEN", "GOCTL_ENTERPRISE_TOKEN")
      else if env "GITHUB_ENTERPRISE_TOKEN" ≠ "" then
        (env "GITHUB_ENTERPRISE_TOKEN", "GITHUB_ENTERPRISE_TOKEN")
      else if (ParseBool (env "CODESPACES")).getD false = true ∧ env "GITHUB_TOKEN" ≠ "" then
        (env "GITHUB_TOKEN", "GITHUB_TOKEN")
      else ((c.Get ["hosts", normalizeHostname tbl host, "oauth_token"]).getD "",
        "oauth_token") := by
  unfold tokenForHost
  simp only [he, if_true]
  rfl

/-- The source `default` only comes with the empty token. -/
theorem tokenForHost_default_empty (tbl : Char → Char) (env : Env) (cfg : Option Config)
    (host : String) (hd : (tokenForHost tbl env cfg host).2 = "default") :
    (tokenForHost tbl env cfg host).1 = "" := by
  have d1 : goctlEnterpriseToken ≠ "default" := by decide
  have d2 : githubEnterpriseToken ≠ "default" := by decide
  have d3 : goctlToken ≠ "default" := by decide
  have d4 : githubToken ≠ "default" := by decide
  have d5 : oauthToken ≠ "default" := by decide
  unfold tokenForHost at hd ⊢
  cases cfg <;> simp only at hd ⊢ <;> split_ifs at hd ⊢ <;>
    first
      | rfl
      | exact absurd hd d1
      | exact absurd hd d2
      | exact absurd hd d3
      | exact absurd hd d4
      | exact absurd hd d5

/-- The result of `tokenForHost` depends on the environment through the five
variables it reads only. -/
theorem tokenForHost_env_congr (tbl : Char → Char) (env env2 : Env) (cfg : Option Config)
    (host : String)
    (hv : ∀ v : String, v ∈ ["GOCTL_ENTERPRISE_TOKEN", "GITHUB_ENTERPRISE_TOKEN", "CODESPACES",
      "GOCTL_TOKEN", "GITHUB_TOKEN"] → env2 v = env v) :
    tokenForHost tbl env2 cfg host = tokenForHost tbl env cfg host := by
  have e1 : env2 goctlEnterpriseToken = env goctlEnterpriseToken := hv _ (by decide)
  have e2 : env2 githubEnterpriseToken = env githubEnterpriseToken := hv _ (by decide)
  have e3 : env2 codespaces = env codespaces := hv _ (by decide)
  have e4 : env2 goctlToken = env goctlToken := hv _ (by decide)
  have e5 : env2 githubToken = env githubToken := hv _ (by decide)
  unfold tokenForHost
  simp only [e1, e2, e3, e4, e5]

/-- The source returned by `tokenFromGh` is always `goctl`. -/
theorem tokenFromGh_source (w : Sys) (path host : String) :
    (tokenFromGh w path host).2 = "goctl" := by
  unfold tokenFromGh
  simp only
  split_ifs <;> rfl

/-- With a nil configuration, an enterprise host that finds no token in the
enterprise branch goes on to the shared tail (lines 81 to 91). -/
theorem tokenForHost_enterprise_absent (tbl : Char → Char) (env : Env) (host : String)
    (he : isEnterprise (normalizeHostname tbl host) = true) :
    tokenForHost tbl env none host =
      if env "GOCTL_ENTERPRISE_TOKEN" ≠ "" then
        (env "GOCTL_ENTERPRISE_TOKEN", "GOCTL_ENTERPRISE_TOKEN")
      else if env "GITHUB_ENTERPRISE_TOKEN" ≠ "" then
        (env "GITHUB_ENTERPRISE_TOKEN", "GITHUB_ENTERPRISE_TOKEN")
      else if (ParseBool (env "CODESPACES")).getD false = true ∧ env "GITHUB_TOKEN" ≠ "" then
        (env "GITHUB_TOKEN", "GITHUB_TOKEN")
      else if env "GOCTL_TOKEN" ≠ "" then (env "GOCTL_TOKEN", "GOCTL_TOKEN")
      else if env "GITHUB_TOKEN" ≠ "" then (env "GITHUB_TOKEN", "GITHUB_TOKEN")
      else ("", "default") := by
  unfold tokenForHost
  simp only [he, if_true]
  rfl

/-! ## Lemmas on the host argument -/

theorem normalizeHostname_eq (tbl : Char → Char) (h : String) :
    normalizeHostname tbl h =
      if HasSuffix (ToLower tbl h) ".github.com" = true then "github.com"
      else if HasSuffix (ToLower tbl h) ".github.localhost" = true then "github.localhost"
      else ToLower tbl h := rfl

theorem isEnterprise_eq_false_iff (host : String) :
    isEnterprise host = false ↔ host = "github.com" ∨ host = "github.localhost" := by
  rw [← Bool.not_eq_true, isEnterprise_iff]
  constructor
  · intro h
    by_cases h1 : host = "github.com"
    · exact Or.inl h1
    · by_cases h2 : host = "github.localhost"
      · exact Or.inr h2
      · exact absurd ⟨h1, h2⟩ h
  · rintro (h | h) ⟨h1, h2⟩
    · exact h1 h
    · exact h2 h

/-- A normalized host is left in place by `normalizeHostname`, when the case
table sends every non-ASCII rune to a rune that `unicode.ToLower` fixes. -/
theorem normalizeHostname_fixed (tbl : Char → Char)
    (htbl : ∀ r : Char, 0x7F < r.toNat → unicodeToLower tbl (tbl r) = tbl r)
    (h x : String) (hx : x = normalizeHostname tbl h) : normalizeHostname tbl x = x := by
  rw [normalizeHostname_eq tbl h] at hx
  split_ifs at hx with h1 h2
  · rw [hx]
    rfl
  · rw [hx]
    rfl
  · rw [hx, normalizeHostname_eq, ToLower_idem tbl htbl h, if_neg h1, if_neg h2]

/-- The host enters `tokenForHost` through its normalized form only. -/
theorem tokenForHost_congr_host (tbl : Char → Char) (env : Env) (cfg : Option Config)
    (a b : String) (hab : normalizeHostname tbl a = normalizeHostname tbl b) :
    tokenForHost tbl env cfg a = tokenForHost tbl env cfg b := by
  unfold tokenForHost
  simp only [hab]

/-! ## Lemmas on the string set and on `knownHosts` -/

theorem StringSet.mem_Add (s : StringSet) (value x : String) :
    x ∈ (s.Add value).v ↔ x ∈ s.v ∨ x = value := by
  unfold StringSet.Add StringSet.Contains
  by_cases h : value ∈ s.v
  · simp only [h, decide_True, if_true]
    constructor
    · exact Or.inl
    · rintro (h1 | h1)
      · exact h1
      · rw [h1]
        exact h
  · simp [h]

theorem StringSet.nodup_Add (s : StringSet) (value : String) (hs : s.v.Nodup) :
    (s.Add value).v.Nodup := by
  unfold StringSet.Add StringSet.Contains
  by_cases h : value ∈ s.v
  · simp only [h, decide_True, if_true]
    exact hs
  · simp only [h, decide_False, Bool.false_eq_true, if_false]
    rw [List.nodup_append]
    refine ⟨hs, List.nodup_singleton _, ?_⟩
    intro a ha hb
    rw [List.mem_singleton] at hb
    rw [hb] at ha
    exact h ha

theorem StringSet.mem_AddValues (values : List String) (s : StringSet) (x : String) :
    x ∈ (s.AddValues values).v ↔ x ∈ s.v ∨ x ∈ values := by
  induction values generalizing s with
  | nil => simp [StringSet.AddValues]
  | cons a rest ih =>
    have step : s.AddValues (a :: rest) = (s.Add a).AddValues rest := rfl
    rw [step, ih, StringSet.mem_Add, List.mem_cons]
    constructor
    · rintro ((h | h) | h)
      · exact Or.inl h
      · exact Or.inr (Or.inl h)
      · exact Or.inr (Or.inr h)
    · rintro (h | h | h)
      · exact Or.inl (Or.inl h)
      · exact Or.inl (Or.inr h)
      · exact Or.inr h

theorem StringSet.nodup_AddValues (values : List String) (s : StringSet) (hs : s.v.Nodup) :
    (s.AddValues values).v.Nodup := by
  induction values generalizing s with
  | nil => exact hs
  | cons a rest ih =>
    have step : s.AddValues (a :: rest) = (s.Add a).AddValues rest := rfl
    rw [step]
    exact ih (s.Add a) (StringSet.nodup_Add s a hs)

/-- Membership in `knownHosts`, by the three insertions of lines 114 to 125. -/
theorem mem_knownHosts (tbl : Char → Char) (env : Env) (cfg : Option Config) (h : String) :
    h ∈ knownHosts tbl env cfg ↔
      (env "GOCTL_HOST" ≠ "" ∧ h = env "GOCTL_HOST") ∨
      (h = "github.com" ∧ (tokenForHost tbl env cfg "github.com").1 ≠ "") ∨
      (∃ c keys, cfg = some c ∧ c.Keys ["hosts"] = some keys ∧ h ∈ keys) := by
  have hk : hostsKey = "hosts" := rfl
  have hgh : env goctlHost = env "GOCTL_HOST" := rfl
  have htk : tokenForHost tbl env cfg github = tokenForHost tbl env cfg "github.com" := rfl
  have hg : github = "github.com" := rfl
  unfold knownHosts StringSet.ToSlice NewStringSet
  rw [hgh, htk, hg, hk]
  rcases cfg with _ | c
  · by_cases h1 : env "GOCTL_HOST" = "" <;>
      by_cases h2 : (tokenForHost tbl env none "github.com").1 = "" <;>
      simp [h1, h2, StringSet.mem_Add]
  · rcases hkeys : c.Keys ["hosts"] with _ | keys
    · by_cases h1 : env "GOCTL_HOST" = "" <;>
        by_cases h2 : (tokenForHost tbl env (some c) "github.com").1 = "" <;>
        simp [h1, h2, hkeys, StringSet.mem_Add]
    · by_cases h1 : env "GOCTL_HOST" = "" <;>
        by_cases h2 : (tokenForHost tbl env (some c) "github.com").1 = "" <;>
        simp [h1, h2, hkeys, StringSet.mem_Add, StringSet.mem_AddValues, or_assoc]

/-- The slice returned by `knownHosts` holds no string twice. -/
theorem knownHosts_nodup (tbl : Char → Char) (env : Env) (cfg : Option Config) :
    (knownHosts tbl env cfg).Nodup := by
  unfold knownHosts StringSet.ToSlice
  simp only
  have h0 : NewStringSet.v.Nodup := List.nodup_nil
  have h1 : (if env goctlHost ≠ "" then NewStringSet.Add (env goctlHost)
      else NewStringSet).v.Nodup := by
    split_ifs
    · exact StringSet.nodup_Add _ _ h0
    · exact h0
  generalize (if env goctlHost ≠ "" then NewStringSet.Add (env goctlHost)
    else NewStringSet) = s1 at h1 ⊢
  have h2 : (if (tokenForHost tbl env cfg github).1 ≠ "" then s1.Add github else s1).v.Nodup := by
    split_ifs
    · exact StringSet.nodup_Add _ _ h1
    · exact h1
  generalize (if (tokenForHost tbl env cfg github).1 ≠ "" then s1.Add github else s1) = s2
    at h2 ⊢
  rcases cfg with _ | c
  · exact h2
  · simp only
    rcases c.Keys [hostsKey] with _ | keys
    · exact h2
    · exact StringSet.nodup_AddValues keys s2 h2

/-! ## Claims -/

/-- C1 (evaluation at the failing input): for the enterprise host
`example.com`, a nil configuration and an environment whose only variable is
`GOCTL_TOKEN=x`, `tokenForHost` leaves the enterprise branch and returns the
generic token `("x", "GOCTL_TOKEN")`; with only `GITHUB_TOKEN=y` set, hence
`CODESPACES` not truthy, it returns `("y", "GITHUB_TOKEN")`. -/
theorem tokenForHost_enterprise_nil_config_uses_generic_token :
    isEnterprise (normalizeHostname id "example.com") = true ∧
    tokenForHost id (envOf [("GOCTL_TOKEN", "x")]) none "example.com" = ("x", "GOCTL_TOKEN") ∧
    (ParseBool (envOf [("GITHUB_TOKEN", "y")] "CODESPACES")).getD false = false ∧
    tokenForHost id (envOf [("GITHUB_TOKEN", "y")]) none "example.com" =
      ("y", "GITHUB_TOKEN") := by
  decide

/-- C2: `normalizeHostname` is idempotent, for every string, given that the
case table sends every non-ASCII rune to a rune that `unicode.ToLower` leaves
in place. -/
theorem normalizeHostname_idempotent (tbl : Char → Char)
    (htbl : ∀ r : Char, 0x7F < r.toNat → unicodeToLower tbl (tbl r) = tbl r) (h : String) :
    normalizeHostname tbl (normalizeHostname tbl h) = normalizeHostname tbl h := by
  have hg : normalizeHostname tbl "github.com" = "github.com" := by rfl
  have hl : normalizeHostname tbl "github.localhost" = "github.localhost" := by rfl
  by_cases h1 : HasSuffix (ToLower tbl h) ("." ++ github) = true
  · have e : normalizeHostname tbl h = "github.com" := by
      unfold normalizeHostname
      simp only [h1, if_true]
      rfl
    rw [e, hg]
  · by_cases h2 : HasSuffix (ToLower tbl h) ("." ++ localhost) = true
    · have e : normalizeHostname tbl h = "github.localhost" := by
        unfold normalizeHostname
        simp only [h1, h2, if_true, if_false]
        rfl
      rw [e, hl]
    · have e : normalizeHostname tbl h = ToLower tbl h := by
        unfold normalizeHostname
        simp only [h1, h2, if_false, Bool.false_eq_true]
      rw [e]
      unfold normalizeHostname
      simp only [ToLower_idem tbl htbl h, h1, h2, if_false, Bool.false_eq_true]

/-- Witness of C2 at the table `sampleTable` and the host `É.API.GitHub.com`. -/
theorem normalizeHostname_idempotent_witness :
    normalizeHostname sampleTable (normalizeHostname sampleTable "É.API.GitHub.com") =
      normalizeHostname sampleTable "É.API.GitHub.com" :=
  normalizeHostname_idempotent sampleTable sampleTable_fixed "É.API.GitHub.com"

/-- C3: with `l` the lower-cased host, `normalizeHostname` returns
`github.com` when `l` is `github.com` or ends with `.github.com`; otherwise
`github.localhost` when `l` is `github.localhost` or ends with
`.github.localhost`; otherwise `l`.  `api.github.com` gives `github.com`. -/
theorem normalizeHostname_cases (tbl : Char → Char) (h : String) :
    ((ToLower tbl h = "github.com" ∨ ∃ p : String, ToLower tbl h = p ++ ".github.com") →
      normalizeHostname tbl h = "github.com") ∧
    (¬ (ToLower tbl h = "github.com" ∨ ∃ p : String, ToLower tbl h = p ++ ".github.com") →
      (ToLower tbl h = "github.localhost" ∨
        ∃ p : String, ToLower tbl h = p ++ ".github.localhost") →
      normalizeHostname tbl h = "github.localhost") ∧
    (¬ (ToLower tbl h = "github.com" ∨ ∃ p : String, ToLower tbl h = p ++ ".github.com") →
      ¬ (ToLower tbl h = "github.localhost" ∨
        ∃ p : String, ToLower tbl h = p ++ ".github.localhost") →
      normalizeHostname tbl h = ToLower tbl h) ∧
    normalizeHostname tbl "api.github.com" = "github.com" := by
  have hs1 := HasSuffix_iff (ToLower tbl h) ".github.com"
  have hs2 := HasSuffix_iff (ToLower tbl h) ".github.localhost"
  have e1 : ("." ++ github : String) = ".github.com" := by decide
  have e2 : ("." ++ localhost : String) = ".github.localhost" := by decide
  refine ⟨?_, ?_, ?_, by rfl⟩
  · rintro (hl | hp)
    · unfold normalizeHostname
      rw [hl]
      rfl
    · unfold normalizeHostname
      simp only [e1, hs1.mpr hp, if_true]
      rfl
  · intro hn
    have n1 : ¬ HasSuffix (ToLower tbl h) ".github.com" = true :=
      fun hc => hn (Or.inr (hs1.mp hc))
    rintro (hl | hp)
    · unfold normalizeHostname
      rw [hl]
      rfl
    · unfold normalizeHostname
      simp only [e1, e2, n1, hs2.mpr hp, if_true, if_false]
      rfl
  · intro hn hm
    have n1 : ¬ HasSuffix (ToLower tbl h) ".github.com" = true :=
      fun hc => hn (Or.inr (hs1.mp hc))
    have n2 : ¬ HasSuffix (ToLower tbl h) ".github.localhost" = true :=
      fun hc => hm (Or.inr (hs2.mp hc))
    unfold normalizeHostname
    simp only [e1, e2, n1, n2, if_false, Bool.false_eq_true]

/-- Witness of C3: `Raw.GitHub.com` lower-cases to `raw` followed by
`.github.com`, and is normalized to `github.com`. -/
theorem normalizeHostname_cases_witness :
    normalizeHostname sampleTable "Raw.GitHub.com" = "github.com" :=
  (normalizeHostname_cases sampleTable "Raw.GitHub.com").1 (Or.inr ⟨"raw", by decide⟩)

/-- C4: for a host whose normalized form is neither `github.com` nor
`github.localhost`, any configuration (present or nil) and any environment
with a non-empty `GOCTL_ENTERPRISE_TOKEN`, `tokenForHost` returns that value
with the source `GOCTL_ENTERPRISE_TOKEN`. -/
theorem tokenForHost_enterprise_token_first (tbl : Char → Char) (env : Env)
    (cfg : Option Config) (host : String)
    (hg : normalizeHostname tbl host ≠ "github.com")
    (hl : normalizeHostname tbl host ≠ "github.localhost")
    (ht : env "GOCTL_ENTERPRISE_TOKEN" ≠ "") :
    tokenForHost tbl env cfg host =
      (env "GOCTL_ENTERPRISE_TOKEN", "GOCTL_ENTERPRISE_TOKEN") := by
  have he : isEnterprise (normalizeHostname tbl host) = true :=
    (isEnterprise_iff _).mpr ⟨hg, hl⟩
  have ht2 : env goctlEnterpriseToken ≠ "" := ht
  unfold tokenForHost
  simp only [he, if_true, ht2, ne_eq, not_false_eq_true]
  rfl

/-- Witness of C4: host `ghe.example.com`, a configuration holding a token for
another reading of the host, and every other token variable set as well. -/
theorem tokenForHost_enterprise_token_first_witness :
    tokenForHost sampleTable
      (envOf [("GOCTL_ENTERPRISE_TOKEN", "e1"), ("GITHUB_ENTERPRISE_TOKEN", "e2"),
        ("GOCTL_TOKEN", "g1"), ("GITHUB_TOKEN", "g2"), ("CODESPACES", "true")])
      (some exampleConfig) "GHE.Example.com" = ("e1", "GOCTL_ENTERPRISE_TOKEN") :=
  tokenForHost_enterprise_token_first sampleTable _ (some exampleConfig) "GHE.Example.com"
    (by decide) (by decide) (by decide)

/-- C5: with a configuration present and the four token variables empty,
`tokenForHost` returns the value found at
`hosts.<normalized host>.oauth_token`, or the empty string when the lookup
fails, in both cases with the source `oauth_token`. -/
theorem tokenForHost_config_fallback (tbl : Char → Char) (env : Env) (c : Config)
    (host : String)
    (h1 : env "GOCTL_ENTERPRISE_TOKEN" = "") (h2 : env "GITHUB_ENTERPRISE_TOKEN" = "")
    (h3 : env "GOCTL_TOKEN" = "") (h4 : env "GITHUB_TOKEN" = "") :
    tokenForHost tbl env (some c) host =
      ((c.Get ["hosts", normalizeHostname tbl host, "oauth_token"]).getD "",
        "oauth_token") := by
  cases he : isEnterprise (normalizeHostname tbl host)
  · rw [tokenForHost_not_enterprise tbl env (some c) host he]
    simp [h3, h4]
  · rw [tokenForHost_enterprise_present tbl env c host he]
    simp [h1, h2, h4]

/-- Witness of C5: `hosts.example.com.oauth_token = abc` and an empty
environment give `("abc", "oauth_token")` for `example.com`. -/
theorem tokenForHost_config_fallback_witness :
    tokenForHost sampleTable (envOf []) (some exampleConfig) "example.com" =
      ("abc", "oauth_token") :=
  tokenForHost_config_fallback sampleTable (envOf []) exampleConfig "example.com"
    (by decide) (by decide) (by decide) (by decide)

/-- C6: for a host whose normalized form is `github.com` or
`github.localhost`, the result is `GOCTL_TOKEN` when non-empty, else
`GITHUB_TOKEN` when non-empty, else the configured `oauth_token` (or the empty
string) when a configuration is present, else `("", "default")`. -/
theorem tokenForHost_default_host (tbl : Char → Char) (env : Env) (cfg : Option Config)
    (host : String)
    (hh : normalizeHostname tbl host = "github.com" ∨
      normalizeHostname tbl host = "github.localhost") :
    tokenForHost tbl env cfg host =
      if env "GOCTL_TOKEN" ≠ "" then (env "GOCTL_TOKEN", "GOCTL_TOKEN")
      else if env "GITHUB_TOKEN" ≠ "" then (env "GITHUB_TOKEN", "GITHUB_TOKEN")
      else match cfg with
        | some c => ((c.Get ["hosts", normalizeHostname tbl host, "oauth_token"]).getD "",
            "oauth_token")
        | none => ("", "default") := by
  apply tokenForHost_not_enterprise
  cases he : isEnterprise (normalizeHostname tbl host)
  · rfl
  · have := (isEnterprise_iff _).mp he
    rcases hh with hh | hh
    · exact absurd hh this.1
    · exact absurd hh this.2

/-- Witness of C6: `api.github.com` with only `GITHUB_TOKEN` set, the
enterprise variables set as well. -/
theorem tokenForHost_default_host_witness :
    tokenForHost sampleTable
      (envOf [("GITHUB_TOKEN", "g2"), ("GOCTL_ENTERPRISE_TOKEN", "e1")])
      (some exampleConfig) "api.github.com" = ("g2", "GITHUB_TOKEN") :=
  tokenForHost_default_host sampleTable _ (some exampleConfig) "api.github.com"
    (Or.inl (by decide))

/-- C7: whenever `tokenForHost` or `TokenForHost` returns the source
`default`, the token returned with it is the empty string. -/
theorem default_source_has_empty_token :
    (∀ (tbl : Char → Char) (env : Env) (cfg : Option Config) (host : String),
      (tokenForHost tbl env cfg host).2 = "default" →
        (tokenForHost tbl env cfg host).1 = "") ∧
    (∀ (w : Sys) (host : String),
      (TokenForHost w host).2 = "default" → (TokenForHost w host).1 = "") := by
  refine ⟨tokenForHost_default_empty, ?_⟩
  intro w host
  have hgo : ("goctl" : String) ≠ "default" := by decide
  unfold TokenForHost
  simp only
  split_ifs with h1 h2
  · exact tokenForHost_default_empty w.tbl w.env w.readConfig host
  · intro hd
    rw [tokenFromGh_source] at hd
    exact absurd hd hgo
  · intro _
    rfl

/-- Witness of C7: `github.com` with an empty environment, no configuration
and no helper; both functions return the source `default` and the empty
token. -/
theorem default_source_has_empty_token_witness :
    (tokenForHost sampleTable (envOf []) none "github.com").1 = "" ∧
    (TokenForHost (sampleSys (envOf []) none "" "github.com" ("", true)) "github.com").1 = "" :=
  ⟨default_source_has_empty_token.1 sampleTable (envOf []) none "github.com" (by decide),
   default_source_has_empty_token.2 (sampleSys (envOf []) none "" "github.com" ("", true))
     "github.com" (by decide)⟩

/-- C8: when the environment and the configuration give an empty token and
the helper is absent (`GOCTL_PATH` empty and nothing found on the path), or
its invocation fails, or its trimmed output is empty, `TokenForHost` returns
`("", "default")`; and `TokenForHost` never pairs the empty token with a source
other than `default`. -/
theorem TokenForHost_without_helper_token (w : Sys) (host : String) :
    ((TokenFromEnvOrConfig w host).1 = "" →
      ((w.env "GOCTL_PATH" = "" ∧ w.lookPath "goctl" = "") ∨
        (w.output (if w.env "GOCTL_PATH" = "" then w.lookPath "goctl" else w.env "GOCTL_PATH")
          ["auth", "token", "--secure-storage", "--hostname", host]).2 = true ∨
        TrimSpace (w.output
          (if w.env "GOCTL_PATH" = "" then w.lookPath "goctl" else w.env "GOCTL_PATH")
          ["auth", "token", "--secure-storage", "--hostname", host]).1 = "") →
      TokenForHost w host = ("", "default")) ∧
    ((TokenForHost w host).1 = "" → (TokenForHost w host).2 = "default") := by
  constructor
  · intro h0 hfail
    have hgh : goctlExe w = "" ∨ (tokenFromGh w (goctlExe w) host).1 = "" := by
      rcases hfail with ⟨hp, hl⟩ | herr | hout
      · left
        unfold goctlExe
        rw [if_pos hp]
        exact hl
      · right
        have herr2 : (w.output (goctlExe w)
            ["auth", "token", "--secure-storage", "--hostname", host]).2 = true := herr
        unfold tokenFromGh
        simp only [herr2, if_true]
      · right
        have hout2 : TrimSpace (w.output (goctlExe w)
            ["auth", "token", "--secure-storage", "--hostname", host]).1 = "" := hout
        unfold tokenFromGh
        simp only
        split_ifs
        · rfl
        · exact hout2
    have hn : ¬ (goctlExe w ≠ "" ∧ (tokenFromGh w (goctlExe w) host).1 ≠ "") := by
      rintro ⟨ha, hb⟩
      rcases hgh with hc | hc
      · exact ha hc
      · exact hb hc
    unfold TokenForHost
    simp only [h0, ne_eq, not_true_eq_false, if_false]
    rw [if_neg hn]
    rfl
  · unfold TokenForHost
    simp only
    split_ifs with h1 h2
    · intro he
      exact absurd he h1
    · intro he
      exact absurd he h2.2
    · intro _
      rfl

/-- Witness of C8: for `github.com` with no helper at all the result is
`("", "default")`; and with a configuration that holds no token for the host
and a helper that prints only white space it is `("", "default")` as well. -/
theorem TokenForHost_without_helper_token_witness :
    TokenForHost (sampleSys (envOf []) none "" "github.com" ("", true)) "github.com" =
      ("", "default") ∧
    TokenForHost (sampleSys (envOf []) (some exampleConfig) "/bin/goctl" "github.com"
      (" \n", false)) "github.com" = ("", "default") ∧
    (TokenForHost (sampleSys (envOf []) (some exampleConfig) "/bin/goctl" "github.com"
      ("", true)) "github.com").2 = "default" :=
  ⟨(TokenForHost_without_helper_token _ "github.com").1 (by decide)
      (Or.inl ⟨by decide, by decide⟩),
   (TokenForHost_without_helper_token _ "github.com").1 (by decide)
      (Or.inr (Or.inr (by decide))),
   (TokenForHost_without_helper_token _ "github.com").2 (by decide)⟩

/-- C9: when the environment and the configuration give an empty token, the
helper path (`GOCTL_PATH`, or else the path lookup of `goctl`) is non-empty,
and the helper run with the arguments
`auth token --secure-storage --hostname <host>` succeeds with an output whose
trimmed form is non-empty, `TokenForHost` returns that trimmed output with the
source `goctl`; the host passed is the argument of the caller, and no other
invocation of the helper bears on the result. -/
theorem TokenForHost_helper_token (w : Sys) (host : String)
    (h0 : (TokenFromEnvOrConfig w host).1 = "")
    (hexe : (if w.env "GOCTL_PATH" = "" then w.lookPath "goctl" else w.env "GOCTL_PATH") ≠ "")
    (hok : (w.output (if w.env "GOCTL_PATH" = "" then w.lookPath "goctl" else w.env "GOCTL_PATH")
      ["auth", "token", "--secure-storage", "--hostname", host]).2 = false)
    (hout : TrimSpace (w.output
      (if w.env "GOCTL_PATH" = "" then w.lookPath "goctl" else w.env "GOCTL_PATH")
      ["auth", "token", "--secure-storage", "--hostname", host]).1 ≠ "") :
    TokenForHost w host =
      (TrimSpace (w.output
        (if w.env "GOCTL_PATH" = "" then w.lookPath "goctl" else w.env "GOCTL_PATH")
        ["auth", "token", "--secure-storage", "--hostname", host]).1, "goctl") ∧
    ∀ w2 : Sys, w2.tbl = w.tbl → w2.env = w.env → w2.readConfig = w.readConfig →
      w2.lookPath = w.lookPath →
      w2.output (if w.env "GOCTL_PATH" = "" then w.lookPath "goctl" else w.env "GOCTL_PATH")
          ["auth", "token", "--secure-storage", "--hostname", host] =
        w.output (if w.env "GOCTL_PATH" = "" then w.lookPath "goctl" else w.env "GOCTL_PATH")
          ["auth", "token", "--secure-storage", "--hostname", host] →
      TokenForHost w2 host = TokenForHost w host := by
  have hgh : tokenFromGh w (goctlExe w) host =
      (TrimSpace (w.output (goctlExe w)
        ["auth", "token", "--secure-storage", "--hostname", host]).1, "goctl") := by
    have hok2 : (w.output (goctlExe w)
        ["auth", "token", "--secure-storage", "--hostname", host]).2 = false := hok
    unfold tokenFromGh
    simp only [hok2, Bool.false_eq_true, if_false]
  constructor
  · have hc : goctlExe w ≠ "" ∧ (tokenFromGh w (goctlExe w) host).1 ≠ "" := by
      refine ⟨hexe, ?_⟩
      rw [hgh]
      exact hout
    unfold TokenForHost
    simp only [h0, ne_eq, not_true_eq_false, if_false]
    rw [if_pos hc, hgh]
    rfl
  · intro w2 e1 e2 e3 e4 e5
    have hT : TokenFromEnvOrConfig w2 host = TokenFromEnvOrConfig w host := by
      unfold TokenFromEnvOrConfig
      rw [e1, e2, e3]
    have hE : goctlExe w2 = goctlExe w := by
      unfold goctlExe
      rw [e2, e4]
    have hG : tokenFromGh w2 (goctlExe w) host = tokenFromGh w (goctlExe w) host := by
      have e6 : w2.output (goctlExe w) ["auth", "token", "--secure-storage", "--hostname", host]
          = w.output (goctlExe w) ["auth", "token", "--secure-storage", "--hostname", host] := e5
      unfold tokenFromGh
      simp only [e6]
    unfold TokenForHost
    simp only [hT, hE, hG]

/-- Witness of C9: no token in the environment or the configuration for
`GitHub.com`, a helper found on the path that prints ` tok` and a newline when
run for the host `GitHub.com` as the caller wrote it. -/
theorem TokenForHost_helper_token_witness :
    TokenForHost (sampleSys (envOf []) (some exampleConfig) "/bin/goctl" "GitHub.com"
      (" tok\n", false)) "GitHub.com" = ("tok", "goctl") :=
  (TokenForHost_helper_token
    (sampleSys (envOf []) (some exampleConfig) "/bin/goctl" "GitHub.com" (" tok\n", false))
    "GitHub.com" (by decide) (by decide) (by decide) (by decide)).1

/-- C10: when the environment and the configuration give a non-empty token,
`TokenForHost` returns that token and source; the result is the same in every
system with the same case table, configuration and values of the five token
variables, whatever `GOCTL_PATH`, the path lookup and the helper are. -/
theorem TokenForHost_env_config_first (w : Sys) (host : String)
    (h : (TokenFromEnvOrConfig w host).1 ≠ "") :
    TokenForHost w host = TokenFromEnvOrConfig w host ∧
    ∀ w2 : Sys, w2.tbl = w.tbl → w2.readConfig = w.readConfig →
      (∀ v : String, v ∈ ["GOCTL_ENTERPRISE_TOKEN", "GITHUB_ENTERPRISE_TOKEN", "CODESPACES",
        "GOCTL_TOKEN", "GITHUB_TOKEN"] → w2.env v = w.env v) →
      TokenForHost w2 host = TokenFromEnvOrConfig w host := by
  have key : ∀ u : Sys, (TokenFromEnvOrConfig u host).1 ≠ "" →
      TokenForHost u host = TokenFromEnvOrConfig u host := by
    intro u hu
    unfold TokenForHost
    simp only
    rw [if_pos hu]
  refine ⟨key w h, ?_⟩
  intro w2 e1 e2 hv
  have hT : TokenFromEnvOrConfig w2 host = TokenFromEnvOrConfig w host := by
    unfold TokenFromEnvOrConfig
    rw [e1, e2]
    exact tokenForHost_env_congr w.tbl w.env w2.env w.readConfig host hv
  rw [key w2 (by rw [hT]; exact h), hT]

/-- Witness of C10: `GOCTL_TOKEN` is set, `GOCTL_PATH` names a helper that
would print another token; the token of the environment is returned. -/
theorem TokenForHost_env_config_first_witness :
    TokenForHost (sampleSys (envOf [("GOCTL_TOKEN", "g1"), ("GOCTL_PATH", "/bin/goctl")])
      (some exampleConfig) "/bin/goctl" "github.com" ("other", false)) "github.com" =
      ("g1", "GOCTL_TOKEN") :=
  (TokenForHost_env_config_first
    (sampleSys (envOf [("GOCTL_TOKEN", "g1"), ("GOCTL_PATH", "/bin/goctl")])
      (some exampleConfig) "/bin/goctl" "github.com" ("other", false))
    "github.com" (by decide)).1

/-- C11: a host is in `knownHosts` exactly when it is the non-empty value of
`GOCTL_HOST`, or it is `github.com` and `tokenForHost` gives that host a
non-empty token, or the configuration is present, its `hosts` keys are read
without error and the host is one of them; the result holds no string twice;
with the keys `a` and `b` and `GOCTL_HOST` unset the hosts are `a`, `b`, and
`github.com` when its token is non-empty. -/
theorem knownHosts_membership (tbl : Char → Char) (env : Env) (cfg : Option Config) :
    (∀ h : String, h ∈ knownHosts tbl env cfg ↔
      (env "GOCTL_HOST" ≠ "" ∧ h = env "GOCTL_HOST") ∨
      (h = "github.com" ∧ (tokenForHost tbl env cfg "github.com").1 ≠ "") ∨
      (∃ c keys, cfg = some c ∧ c.Keys ["hosts"] = some keys ∧ h ∈ keys)) ∧
    (knownHosts tbl env cfg).Nodup ∧
    (∀ (c : Config) (a b : String), env "GOCTL_HOST" = "" → cfg = some c →
      c.Keys ["hosts"] = some [a, b] →
      ∀ h : String, h ∈ knownHosts tbl env cfg ↔
        h = a ∨ h = b ∨
        (h = "github.com" ∧ (tokenForHost tbl env cfg "github.com").1 ≠ "")) := by
  refine ⟨mem_knownHosts tbl env cfg, knownHosts_nodup tbl env cfg, ?_⟩
  intro c a b h0 hc hkeys h
  subst hc
  rw [mem_knownHosts]
  constructor
  · rintro (⟨h1, _⟩ | h2 | ⟨c2, keys, e1, e2, e3⟩)
    · exact absurd h0 h1
    · exact Or.inr (Or.inr h2)
    · have ec : c2 = c := (Option.some.inj e1).symm
      rw [ec, hkeys] at e2
      rw [← Option.some.inj e2] at e3
      simp only [List.mem_cons, List.mem_singleton, List.not_mem_nil, or_false] at e3
      rcases e3 with e3 | e3
      · exact Or.inl e3
      · exact Or.inr (Or.inl e3)
  · rintro (h1 | h1 | h1)
    · exact Or.inr (Or.inr ⟨c, [a, b], rfl, hkeys, by rw [h1]; simp⟩)
    · exact Or.inr (Or.inr ⟨c, [a, b], rfl, hkeys, by rw [h1]; simp⟩)
    · exact Or.inr (Or.inl h1)

/-- Witness of C11: with the keys `a` and `b`, no `GOCTL_HOST` and no token for
`github.com`, the host `b` is known and `github.com` is not. -/
theorem knownHosts_membership_witness :
    "b" ∈ knownHosts sampleTable (envOf []) (some (hostsConfig ["a", "b"] "t")) ∧
    ¬ "github.com" ∈ knownHosts sampleTable (envOf []) (some (hostsConfig ["a", "b"] "t")) :=
  ⟨((knownHosts_membership sampleTable (envOf []) (some (hostsConfig ["a", "b"] "t"))).2.2
      (hostsConfig ["a", "b"] "t") "a" "b" (by decide) rfl (by decide) "b").mpr
      (Or.inr (Or.inl rfl)),
   fun hm =>
    (((knownHosts_membership sampleTable (envOf []) (some (hostsConfig ["a", "b"] "t"))).2.2
      (hostsConfig ["a", "b"] "t") "a" "b" (by decide) rfl (by decide) "github.com").mp
      hm).elim (by decide) (fun h2 => h2.elim (by decide) (fun h3 => absurd h3.2 (by decide)))⟩

/-- C12: `defaultHost` returns the value of `GOCTL_HOST` with the source
`GOCTL_HOST` when that variable is non-empty; otherwise the single key `x` of
the `hosts` section with the source `hosts` when a configuration is present
and the section has exactly one key; otherwise `("github.com", "default")`:
with no configuration, a failed key lookup, no key, or two or more keys. -/
theorem defaultHost_cases (env : Env) (cfg : Option Config) :
    (env "GOCTL_HOST" ≠ "" → defaultHost env cfg = (env "GOCTL_HOST", "GOCTL_HOST")) ∧
    (env "GOCTL_HOST" = "" → ∀ (c : Config) (x : String), cfg = some c →
      c.Keys ["hosts"] = some [x] → defaultHost env cfg = (x, "hosts")) ∧
    (env "GOCTL_HOST" = "" →
      (cfg = none ∨ ∃ c : Config, cfg = some c ∧
        (c.Keys ["hosts"] = none ∨
          ∃ keys : List String, c.Keys ["hosts"] = some keys ∧ keys.length ≠ 1)) →
      defaultHost env cfg = ("github.com", "default")) := by
  have hgh : env goctlHost = env "GOCTL_HOST" := rfl
  have hk : hostsKey = "hosts" := rfl
  refine ⟨?_, ?_, ?_⟩
  · intro h1
    unfold defaultHost
    rw [hgh, if_pos h1]
    rfl
  · intro h0 c x hc hkeys
    subst hc
    unfold defaultHost
    rw [hgh, hk]
    simp only [h0, ne_eq, not_true_eq_false, if_false, hkeys]
    rfl
  · intro h0 hcase
    unfold defaultHost
    rw [hgh, hk]
    simp only [h0, ne_eq, not_true_eq_false, if_false]
    rcases hcase with hc | ⟨c, hc, hnone | ⟨keys, hkeys, hlen⟩⟩
    · subst hc
      rfl
    · subst hc
      simp only [hnone]
      rfl
    · subst hc
      simp only [hkeys, hlen, if_false]
      rfl

/-- Witness of C12: one key `x` gives `("x", "hosts")`, two keys give
`("github.com", "default")`, and `GOCTL_HOST` goes before a single key. -/
theorem defaultHost_cases_witness :
    defaultHost (envOf []) (some (hostsConfig ["x"] "t")) = ("x", "hosts") ∧
    defaultHost (envOf []) (some (hostsConfig ["x", "y"] "t")) = ("github.com", "default") ∧
    defaultHost (envOf [("GOCTL_HOST", "ghe.io")]) (some (hostsConfig ["x"] "t")) =
      ("ghe.io", "GOCTL_HOST") :=
  ⟨(defaultHost_cases (envOf []) (some (hostsConfig ["x"] "t"))).2.1 (by decide)
      (hostsConfig ["x"] "t") "x" rfl (by decide),
   (defaultHost_cases (envOf []) (some (hostsConfig ["x", "y"] "t"))).2.2 (by decide)
      (Or.inr ⟨hostsConfig ["x", "y"] "t", rfl, Or.inr ⟨["x", "y"], by decide, by decide⟩⟩),
   (defaultHost_cases (envOf [("GOCTL_HOST", "ghe.io")]) (some (hostsConfig ["x"] "t"))).1
      (by decide)⟩

/-- C14: for an enterprise host and any configuration, present or nil: with
both enterprise variables empty, `CODESPACES` one of `1`, `t`, `T`, `true`,
`TRUE`, `True` and `GITHUB_TOKEN` non-empty the result is `GITHUB_TOKEN` with
that source, whatever the configuration and `GOCTL_TOKEN` hold; and with
`GOCTL_ENTERPRISE_TOKEN` empty and `GITHUB_ENTERPRISE_TOKEN` non-empty the
result is `GITHUB_ENTERPRISE_TOKEN` with that source, whatever `CODESPACES`
is. -/
theorem tokenForHost_enterprise_codespaces (tbl : Char → Char) (env : Env)
    (cfg : Option Config) (host : String)
    (hg : normalizeHostname tbl host ≠ "github.com")
    (hl : normalizeHostname tbl host ≠ "github.localhost")
    (h1 : env "GOCTL_ENTERPRISE_TOKEN" = "") :
    (env "GITHUB_ENTERPRISE_TOKEN" = "" →
      env "CODESPACES" ∈ ["1", "t", "T", "true", "TRUE", "True"] →
      env "GITHUB_TOKEN" ≠ "" →
      tokenForHost tbl env cfg host = (env "GITHUB_TOKEN", "GITHUB_TOKEN")) ∧
    (env "GITHUB_ENTERPRISE_TOKEN" ≠ "" →
      tokenForHost tbl env cfg host =
        (env "GITHUB_ENTERPRISE_TOKEN", "GITHUB_ENTERPRISE_TOKEN")) := by
  have he : isEnterprise (normalizeHostname tbl host) = true :=
    (isEnterprise_iff _).mpr ⟨hg, hl⟩
  have e1 : env goctlEnterpriseToken = "" := h1
  constructor
  · intro h2 hcs h4
    have e2 : env githubEnterpriseToken = "" := h2
    have e4 : env githubToken ≠ "" := h4
    have hpb : (ParseBool (env codespaces)).getD false = true := by
      have hcs2 : env codespaces ∈ ["1", "t", "T", "true", "TRUE", "True"] := hcs
      simp only [List.mem_cons, List.mem_singleton, List.not_mem_nil, or_false] at hcs2
      unfold ParseBool
      rw [if_pos hcs2]
      rfl
    unfold tokenForHost
    simp only [he, if_true, e1, e2, ne_eq, not_true_eq_false, if_false, hpb, e4,
      not_false_eq_true, and_self]
    rfl
  · intro h2
    have e2 : env githubEnterpriseToken ≠ "" := h2
    unfold tokenForHost
    simp only [he, if_true, e1, e2, ne_eq, not_true_eq_false, if_false, not_false_eq_true]
    rfl

/-- Witness of C14: `ghe.io` in a codespace with `GOCTL_TOKEN` set and a
configured token gets `GITHUB_TOKEN`; with `GITHUB_ENTERPRISE_TOKEN` set as
well it gets that variable. -/
theorem tokenForHost_enterprise_codespaces_witness :
    tokenForHost sampleTable
      (envOf [("CODESPACES", "True"), ("GITHUB_TOKEN", "g2"), ("GOCTL_TOKEN", "g1")])
      (some (hostsConfig ["ghe.io"] "cfgtok")) "ghe.io" = ("g2", "GITHUB_TOKEN") ∧
    tokenForHost sampleTable
      (envOf [("CODESPACES", "1"), ("GITHUB_TOKEN", "g2"), ("GITHUB_ENTERPRISE_TOKEN", "e2")])
      none "ghe.io" = ("e2", "GITHUB_ENTERPRISE_TOKEN") :=
  ⟨(tokenForHost_enterprise_codespaces sampleTable
      (envOf [("CODESPACES", "True"), ("GITHUB_TOKEN", "g2"), ("GOCTL_TOKEN", "g1")])
      (some (hostsConfig ["ghe.io"] "cfgtok")) "ghe.io" (by decide) (by decide) (by decide)).1
      (by decide) (by decide) (by decide),
   (tokenForHost_enterprise_codespaces sampleTable
      (envOf [("CODESPACES", "1"), ("GITHUB_TOKEN", "g2"), ("GITHUB_ENTERPRISE_TOKEN", "e2")])
      none "ghe.io" (by decide) (by decide) (by decide)).2 (by decide)⟩

/-- C15: `isEnterprise (normalizeHostname h)` is false exactly when the
lower-cased `h` is `github.com` or `github.localhost` or ends with
`.github.com` or `.github.localhost`; `evilgithub.com`, in any letter case, is
an enterprise host and is normalized to `evilgithub.com`. -/
theorem isEnterprise_normalizeHostname (tbl : Char → Char) (h : String) :
    (isEnterprise (normalizeHostname tbl h) = false ↔
      ToLower tbl h = "github.com" ∨ ToLower tbl h = "github.localhost" ∨
      (∃ p : String, ToLower tbl h = p ++ ".github.com") ∨
      (∃ p : String, ToLower tbl h = p ++ ".github.localhost")) ∧
    isEnterprise (normalizeHostname tbl "evilgithub.com") = true ∧
    normalizeHostname tbl "evilgithub.com" = "evilgithub.com" ∧
    normalizeHostname tbl "EvilGitHub.COM" = "evilgithub.com" := by
  refine ⟨?_, by rfl, by rfl, by rfl⟩
  have hs1 := HasSuffix_iff (ToLower tbl h) ".github.com"
  have hs2 := HasSuffix_iff (ToLower tbl h) ".github.localhost"
  rw [isEnterprise_eq_false_iff, normalizeHostname_eq]
  by_cases h1 : HasSuffix (ToLower tbl h) ".github.com" = true
  · rw [if_pos h1]
    constructor
    · intro _
      exact Or.inr (Or.inr (Or.inl (hs1.mp h1)))
    · intro _
      exact Or.inl rfl
  · by_cases h2 : HasSuffix (ToLower tbl h) ".github.localhost" = true
    · rw [if_neg h1, if_pos h2]
      constructor
      · intro _
        exact Or.inr (Or.inr (Or.inr (hs2.mp h2)))
      · intro _
        exact Or.inr rfl
    · rw [if_neg h1, if_neg h2]
      constructor
      · rintro (e | e)
        · exact Or.inl e
        · exact Or.inr (Or.inl e)
      · rintro (e | e | e | e)
        · exact Or.inl e
        · exact Or.inr e
        · exact absurd (hs1.mpr e) h1
        · exact absurd (hs2.mpr e) h2

/-- C16: `tokenForHost` gives a host and its normalized form the same result,
when the case table sends every non-ASCII rune to a rune that
`unicode.ToLower` fixes; two hosts with the same lower-cased form get the same
result, and so does every host whose lower-cased form ends with `.github.com`
and `github.com`. -/
theorem tokenForHost_normalized (tbl : Char → Char)
    (htbl : ∀ r : Char, 0x7F < r.toNat → unicodeToLower tbl (tbl r) = tbl r)
    (env : Env) (cfg : Option Config) (h : String) :
    tokenForHost tbl env cfg h = tokenForHost tbl env cfg (normalizeHostname tbl h) ∧
    (∀ h2 : String, ToLower tbl h2 = ToLower tbl h →
      tokenForHost tbl env cfg h2 = tokenForHost tbl env cfg h) ∧
    ((∃ p : String, ToLower tbl h = p ++ ".github.com") →
      tokenForHost tbl env cfg h = tokenForHost tbl env cfg "github.com") := by
  refine ⟨?_, ?_, ?_⟩
  · apply tokenForHost_congr_host
    exact (normalizeHostname_fixed tbl htbl h _ rfl).symm
  · intro h2 e
    apply tokenForHost_congr_host
    rw [normalizeHostname_eq, normalizeHostname_eq, e]
  · intro hp
    apply tokenForHost_congr_host
    have h1 : HasSuffix (ToLower tbl h) ".github.com" = true :=
      (HasSuffix_iff _ _).mpr hp
    rw [normalizeHostname_eq, if_pos h1]
    rfl

/-- Witness of C16: `É.GHE.io` and its normalized form, `GHE.IO` and `ghe.io`,
`Api.GitHub.com` and `github.com` under the table `sampleTable`. -/
theorem tokenForHost_normalized_witness :
    tokenForHost sampleTable (envOf []) (some (hostsConfig ["é.ghe.io"] "t")) "É.GHE.io" =
      tokenForHost sampleTable (envOf []) (some (hostsConfig ["é.ghe.io"] "t"))
        (normalizeHostname sampleTable "É.GHE.io") ∧
    tokenForHost sampleTable (envOf []) (some (hostsConfig ["é.ghe.io"] "t")) "é.ghe.IO" =
      tokenForHost sampleTable (envOf []) (some (hostsConfig ["é.ghe.io"] "t")) "É.GHE.io" ∧
    tokenForHost sampleTable (envOf []) (some (hostsConfig ["github.com"] "t"))
        "Api.GitHub.com" =
      tokenForHost sampleTable (envOf []) (some (hostsConfig ["github.com"] "t"))
        "github.com" :=
  ⟨(tokenForHost_normalized sampleTable sampleTable_fixed (envOf [])
      (some (hostsConfig ["é.ghe.io"] "t")) "É.GHE.io").1,
   (tokenForHost_normalized sampleTable sampleTable_fixed (envOf [])
      (some (hostsConfig ["é.ghe.io"] "t")) "É.GHE.io").2.1 "é.ghe.IO" (by decide),
   (tokenForHost_normalized sampleTable sampleTable_fixed (envOf [])
      (some (hostsConfig ["github.com"] "t")) "Api.GitHub.com").2.2 ⟨"api", by decide⟩⟩

/-- C17: for a host whose normalized form is `github.com` or
`github.localhost`, two environments that agree on `GOCTL_TOKEN` and
`GITHUB_TOKEN` give the same result, whatever `GOCTL_ENTERPRISE_TOKEN`,
`GITHUB_ENTERPRISE_TOKEN` and `CODESPACES` are; and the source is never one of
the two enterprise variables. -/
theorem tokenForHost_default_host_ignores_enterprise (tbl : Char → Char) (env env2 : Env)
    (cfg : Option Config) (host : String)
    (hh : normalizeHostname tbl host = "github.com" ∨
      normalizeHostname tbl host = "github.localhost")
    (e1 : env2 "GOCTL_TOKEN" = env "GOCTL_TOKEN")
    (e2 : env2 "GITHUB_TOKEN" = env "GITHUB_TOKEN") :
    tokenForHost tbl env2 cfg host = tokenForHost tbl env cfg host ∧
    (tokenForHost tbl env cfg host).2 ≠ "GOCTL_ENTERPRISE_TOKEN" ∧
    (tokenForHost tbl env cfg host).2 ≠ "GITHUB_ENTERPRISE_TOKEN" := by
  have hne : isEnterprise (normalizeHostname tbl host) = false :=
    (isEnterprise_eq_false_iff _).mpr hh
  refine ⟨?_, ?_, ?_⟩
  · rw [tokenForHost_not_enterprise tbl env2 cfg host hne,
      tokenForHost_not_enterprise tbl env cfg host hne, e1, e2]
  · rw [tokenForHost_not_enterprise tbl env cfg host hne]
    rcases cfg with _ | c <;> simp only <;> split_ifs <;> simp
  · rw [tokenForHost_not_enterprise tbl env cfg host hne]
    rcases cfg with _ | c <;> simp only <;> split_ifs <;> simp

/-- Witness of C17: for `api.github.com` the environment with the enterprise
variables and `CODESPACES` set gives the same result as the one without
them. -/
theorem tokenForHost_default_host_ignores_enterprise_witness :
    tokenForHost sampleTable
      (envOf [("GOCTL_ENTERPRISE_TOKEN", "e1"), ("GITHUB_ENTERPRISE_TOKEN", "e2"),
        ("CODESPACES", "true"), ("GITHUB_TOKEN", "g2")])
      (some exampleConfig) "api.github.com" =
    tokenForHost sampleTable (envOf [("GITHUB_TOKEN", "g2")]) (some exampleConfig)
      "api.github.com" :=
  (tokenForHost_default_host_ignores_enterprise sampleTable (envOf [("GITHUB_TOKEN", "g2")])
    (envOf [("GOCTL_ENTERPRISE_TOKEN", "e1"), ("GITHUB_ENTERPRISE_TOKEN", "e2"),
      ("CODESPACES", "true"), ("GITHUB_TOKEN", "g2")])
    (some exampleConfig) "api.github.com" (Or.inl (by decide)) (by decide) (by decide)).1

/-- C18: the source returned by `tokenForHost` is one of
`GOCTL_ENTERPRISE_TOKEN`, `GITHUB_ENTERPRISE_TOKEN`, `GOCTL_TOKEN`,
`GITHUB_TOKEN`, `oauth_token`, `default`; when it is the name of one of the
four variables, the token is the value of that variable and is non-empty; and
it is `default` exactly when the configuration is nil and the source is none
of the four variables, which is when the configuration is nil, `GOCTL_TOKEN`
and `GITHUB_TOKEN` are empty and, for an enterprise host, the two enterprise
variables are empty too. -/
theorem tokenForHost_source_cases (tbl : Char → Char) (env : Env) (cfg : Option Config)
    (host : String) :
    (tokenForHost tbl env cfg host).2 ∈ ["GOCTL_ENTERPRISE_TOKEN", "GITHUB_ENTERPRISE_TOKEN",
      "GOCTL_TOKEN", "GITHUB_TOKEN", "oauth_token", "default"] ∧
    (∀ v : String, v ∈ ["GOCTL_ENTERPRISE_TOKEN", "GITHUB_ENTERPRISE_TOKEN", "GOCTL_TOKEN",
        "GITHUB_TOKEN"] →
      (tokenForHost tbl env cfg host).2 = v →
      (tokenForHost tbl env cfg host).1 = env v ∧ env v ≠ "") ∧
    ((tokenForHost tbl env cfg host).2 = "default" ↔
      cfg = none ∧ (tokenForHost tbl env cfg host).2 ∉ ["GOCTL_ENTERPRISE_TOKEN",
        "GITHUB_ENTERPRISE_TOKEN", "GOCTL_TOKEN", "GITHUB_TOKEN"]) ∧
    ((tokenForHost tbl env cfg host).2 = "default" ↔
      cfg = none ∧ env "GOCTL_TOKEN" = "" ∧ env "GITHUB_TOKEN" = "" ∧
      (isEnterprise (normalizeHostname tbl host) = true →
        env "GOCTL_ENTERPRISE_TOKEN" = "" ∧ env "GITHUB_ENTERPRISE_TOKEN" = "")) := by
  cases he : isEnterprise (normalizeHostname tbl host)
  · rw [tokenForHost_not_enterprise tbl env cfg host he]
    rcases cfg with _ | c <;> simp only <;> split_ifs with h1 h2 <;>
      simp_all
  · rcases cfg with _ | c
    · rw [tokenForHost_enterprise_absent tbl env host he]
      split_ifs with h1 h2 h3 h4 h5 <;> simp_all
    · rw [tokenForHost_enterprise_present tbl env c host he]
      split_ifs with h1 h2 h3 <;> simp_all

/-- Witness of C18: for the enterprise host `ghe.io` with a nil configuration
and `GOCTL_TOKEN=x` the source `GOCTL_TOKEN` comes with the value `x`; for
`github.com` with a nil configuration and only `GOCTL_ENTERPRISE_TOKEN` set the
source is `default`. -/
theorem tokenForHost_source_cases_witness :
    ((tokenForHost sampleTable (envOf [("GOCTL_TOKEN", "x")]) none "ghe.io").1 =
        envOf [("GOCTL_TOKEN", "x")] "GOCTL_TOKEN" ∧
      envOf [("GOCTL_TOKEN", "x")] "GOCTL_TOKEN" ≠ "") ∧
    (tokenForHost sampleTable (envOf [("GOCTL_ENTERPRISE_TOKEN", "e")]) none "github.com").2 =
      "default" :=
  ⟨(tokenForHost_source_cases sampleTable (envOf [("GOCTL_TOKEN", "x")]) none "ghe.io").2.1
      "GOCTL_TOKEN" (by decide) (by decide),
   (tokenForHost_source_cases sampleTable (envOf [("GOCTL_ENTERPRISE_TOKEN", "e")]) none
      "github.com").2.2.2.mpr ⟨rfl, by decide, by decide, by decide⟩⟩

end Auth

namespace Browser

open Auth

/-- The six cases of `TestResolveLauncher` in `browser_test.go`. -/
theorem resolveLauncher_test_table :
    resolveLauncher (envOf [("GOCTL_BROWSER", "GOCTL_BROWSER")]) none = "GOCTL_BROWSER" ∧
    resolveLauncher (envOf []) (some (browserConfig "CONFIG_BROWSER")) = "CONFIG_BROWSER" ∧
    resolveLauncher (envOf [("BROWSER", "BROWSER")]) none = "BROWSER" ∧
    resolveLauncher (envOf [("GOCTL_BROWSER", "GOCTL_BROWSER")])
      (some (browserConfig "CONFIG_BROWSER")) = "GOCTL_BROWSER" ∧
    resolveLauncher (envOf [("BROWSER", "BROWSER")])
      (some (browserConfig "CONFIG_BROWSER")) = "CONFIG_BROWSER" ∧
    resolveLauncher (envOf [("BROWSER", "BROWSER"), ("GOCTL_BROWSER", "GOCTL_BROWSER")]) none =
      "GOCTL_BROWSER" := by
  decide

/-- C13: `resolveLauncher` returns `GOCTL_BROWSER` when non-empty; otherwise
the `browser` value of the configuration when a configuration is present and
that value is non-empty; otherwise the value of `BROWSER`, empty when unset.
With `GOCTL_BROWSER=A`, `browser: B`, `BROWSER=C` the result is `A`; without
`GOCTL_BROWSER` it is `B`; without the configuration too it is `C`. -/
theorem resolveLauncher_precedence (env : Env) (cfg : Option Config) :
    (env "GOCTL_BROWSER" ≠ "" → resolveLauncher env cfg = env "GOCTL_BROWSER") ∧
    (env "GOCTL_BROWSER" = "" → ∀ c : Config, cfg = some c →
      (c.Get ["browser"]).getD "" ≠ "" →
      resolveLauncher env cfg = (c.Get ["browser"]).getD "") ∧
    (env "GOCTL_BROWSER" = "" →
      (cfg = none ∨ ∃ c : Config, cfg = some c ∧ (c.Get ["browser"]).getD "" = "") →
      resolveLauncher env cfg = env "BROWSER") ∧
    resolveLauncher (envOf [("GOCTL_BROWSER", "A"), ("BROWSER", "C")])
      (some (browserConfig "B")) = "A" ∧
    resolveLauncher (envOf [("BROWSER", "C")]) (some (browserConfig "B")) = "B" ∧
    resolveLauncher (envOf [("BROWSER", "C")]) none = "C" ∧
    resolveLauncher (envOf []) none = "" := by
  refine ⟨?_, ?_, ?_, by decide, by decide, by decide, by decide⟩
  · intro h1
    unfold resolveLauncher
    rw [if_pos h1]
  · intro h0 c hc hb
    subst hc
    unfold resolveLauncher
    simp only [h0, ne_eq, not_true_eq_false, if_false]
    rw [if_pos hb]
  · intro h0 hcase
    unfold resolveLauncher
    simp only [h0, ne_eq, not_true_eq_false, if_false]
    rcases hcase with hc | ⟨c, hc, hb⟩
    · subst hc
      rfl
    · subst hc
      simp only [hb, not_true_eq_false, if_false]

/-- Witness of C13: the configured browser `B` is returned when `GOCTL_BROWSER`
is unset, and `BROWSER` when the configuration has an empty `browser`. -/
theorem resolveLauncher_precedence_witness :
    resolveLauncher (envOf [("BROWSER", "C")]) (some (browserConfig "B")) = "B" ∧
    resolveLauncher (envOf [("BROWSER", "C")]) (some (browserConfig "")) = "C" :=
  ⟨(resolveLauncher_precedence (envOf [("BROWSER", "C")]) (some (browserConfig "B"))).2.1
      (by decide) (browserConfig "B") rfl (by decide),
   (resolveLauncher_precedence (envOf [("BROWSER", "C")]) (some (browserConfig ""))).2.2.1
      (by decide) (Or.inr ⟨browserConfig "", rfl, by decide⟩)⟩

end Browser
